import Mathlib

/-!
# Verification of the cliagents session/process orchestration core

Shallow embedding of the Session Lifecycle & Streaming Process Orchestrator:
`SessionManager` (src/unnamed/part_002), `BaseLLMAdapter.sendAndWait`
(src/unnamed/part_002, second document), and the adapter-side process
tracking / stream finalization logic of `ClaudeCodeAdapter`
(src/src/adapters/claude-code.js) and `GooseAdapter`
(src/src/adapters/goose.js).

JavaScript `Map` objects are modelled as association lists (`JMap`) whose
operations mirror `Map.get` / `Map.set` / `Map.delete` / `Map.has`,
including insertion-order iteration (`set` on an existing key updates in
place; otherwise it appends).  Timestamps (`Date.now()`) are explicit `Nat`
parameters.  `throw` is modelled with `Except` (operations that mutate
before throwing return the mutated state alongside the `Except`).
-/

namespace CliAgents

/-- Association-list model of a JavaScript `Map` with `String` keys. -/
abbrev JMap (α : Type) : Type := List (String × α)

namespace JMap

/-- `Map.prototype.get`: first entry with the given key. -/
def get {α : Type} : JMap α → String → Option α
  | [], _ => none
  | (k, v) :: rest, key => if k = key then some v else get rest key

/-- `Map.prototype.set`: update in place when the key is present, append otherwise
(JavaScript `Map` preserves insertion order and `set` does not move a key). -/
def set {α : Type} : JMap α → String → α → JMap α
  | [], key, val => [(key, val)]
  | (k, v) :: rest, key, val =>
    if k = key then (k, val) :: rest else (k, v) :: set rest key val

/-- `Map.prototype.delete` (the entry removal part; the returned `Bool` of the
JavaScript method is unused by the modelled code). -/
def delete {α : Type} : JMap α → String → JMap α
  | [], _ => []
  | (k, v) :: rest, key => if k = key then rest else (k, v) :: delete rest key

/-- `Map.prototype.has`. -/
def has {α : Type} (m : JMap α) (key : String) : Bool :=
  (m.get key).isSome

/-- `Map.prototype.size`. -/
def size {α : Type} (m : JMap α) : Nat :=
  List.length m

/-- Number of entries stored under a key (a JavaScript `Map` always has at
most one; the model keeps this as a provable invariant). -/
def countKey {α : Type} (m : JMap α) (key : String) : Nat :=
  (List.filter (fun p => p.1 = key) m).length

/-- Key-uniqueness invariant of a JavaScript `Map`. -/
abbrev NodupKeys {α : Type} (m : JMap α) : Prop :=
  List.Nodup (List.map Prod.fst m)

end JMap

/-- JavaScript truthiness of an optional string (`undefined`/`null`/empty
string are falsy). -/
def strTruthy : Option String → Bool
  | none => false
  | some s => s ≠ ""

/-- JavaScript `a || b` on strings (empty string is falsy). -/
def jsOr (a b : String) : String :=
  if a = "" then b else a

/-- `String.prototype.trim()`: strip whitespace from both ends (modelled by
structural recursion so that it evaluates inside the kernel). -/
def jsTrim (s : String) : String :=
  ⟨(((s.data.dropWhile Char.isWhitespace).reverse.dropWhile
      Char.isWhitespace).reverse)⟩

/-- Session status tracked by the registry: 'stable' | 'running' | 'error'
(part_002 line 129). -/
inductive Status where
  | stable
  | running
  | error
deriving DecidableEq, Repr

/-- Registry bookkeeping record, part_002 lines 124-131. -/
structure RSession where
  sessionId : String
  adapterName : String
  createdAt : Nat
  lastActivity : Nat
  status : Status
  messageCount : Nat
deriving DecidableEq, Repr

/-- Child-process handle as the modelled code observes it: identity plus the
`killed` flag consulted by `interrupt`/`terminate`. -/
structure Proc where
  pid : Nat
  killed : Bool
deriving DecidableEq, Repr

/-- Adapter-side session metadata, claude-code.js lines 132-142 (the fields
the orchestration logic reads). -/
structure ASession where
  claudeSessionId : Option String := none
  ready : Bool := true
  messageCount : Nat := 0
  workDir : String := "/tmp/agent"
deriving DecidableEq, Repr

/-- Adapter state: the `sessions` and `activeProcesses` maps of
`ClaudeCodeAdapter` (claude-code.js lines 31-32; `GooseAdapter` has the same
shape), plus the result of the `isAvailable` probe (an external `which`
call, modelled as a boolean field). -/
structure Adapter where
  sessions : JMap ASession := []
  activeProcesses : JMap Proc := []
  available : Bool := true
deriving DecidableEq, Repr

/-- The `SessionManager` state, part_002 lines 12-28.  All registered
adapters are modelled with the representative `Adapter` state above. -/
structure Manager where
  adapters : JMap Adapter := []
  sessions : JMap RSession := []
  defaultAdapter : String := "claude-code"
  sessionTimeout : Nat := 30 * 60 * 1000
  maxSessions : Nat := 10
deriving DecidableEq, Repr

/-- Options accepted by `SessionManager.createSession` (the fields the
orchestration logic branches on; generation parameters are passed through
to `spawn` opaquely and omitted). -/
structure CreateOptions where
  adapter : Option String := none
  sessionId : Option String := none
  workDir : Option String := none
deriving DecidableEq, Repr

/-- Value returned by `SessionManager.createSession`, part_002
lines 135-139. -/
structure CreateResult where
  sessionId : String
  adapter : String
  status : String
deriving DecidableEq, Repr

namespace Adapter

/-- `ClaudeCodeAdapter.spawn` (claude-code.js lines 115-157): throws when the
adapter already tracks `sessionId`, otherwise records lazy session metadata
(no external call). -/
def spawn (a : Adapter) (sessionId : String) (opts : CreateOptions) :
    Except String (Adapter) :=
  if a.sessions.has sessionId then
    Except.error ("Session " ++ sessionId ++ " already exists")
  else
    Except.ok { a with
      sessions := a.sessions.set sessionId
        { claudeSessionId := none
          ready := true
          messageCount := 0
          workDir := (opts.workDir).getD "/tmp/agent" } }

/-- `ClaudeCodeAdapter.terminate` (claude-code.js lines 637-659): returns
early when the session is unknown; otherwise signals any active process
(signals are traced separately in `terminateSignals`) and deletes both the
process-tracking entry and the session entry. -/
def terminate (a : Adapter) (sessionId : String) : Adapter :=
  match a.sessions.get sessionId with
  | none => a
  | some _ =>
    { a with
      activeProcesses := a.activeProcesses.delete sessionId
      sessions := a.sessions.delete sessionId }

/-- `ClaudeCodeAdapter.isSessionActive` (claude-code.js line 678). -/
def isSessionActive (a : Adapter) (sessionId : String) : Bool :=
  a.sessions.has sessionId

/-- Process registration at the start of `_runClaudeCommandStreaming`
(claude-code.js lines 302-305): `if (sessionId) this.activeProcesses.set(sessionId, proc)`.
The guard is JavaScript truthiness of the optional `options.sessionId`. -/
def trackActiveProcess (a : Adapter) (sessionId : Option String) (proc : Proc) :
    Adapter :=
  if strTruthy sessionId then
    { a with activeProcesses := a.activeProcesses.set (sessionId.getD "") proc }
  else a

/-- Process deregistration in the `close`/`error` callbacks of
`_runClaudeCommandStreaming` (claude-code.js lines 331-346). -/
def untrackActiveProcess (a : Adapter) (sessionId : Option String) : Adapter :=
  if strTruthy sessionId then
    { a with activeProcesses := a.activeProcesses.delete (sessionId.getD "") }
  else a

end Adapter

/-! ## `BaseLLMAdapter.sendAndWait` (part_002, second document, lines 478-507) -/

/-- Chunk shapes consumed by `sendAndWait` (the `chunk.type` values it
branches on; everything else falls through silently). -/
inductive WChunk where
  | text (content : String)
  | result (content : String) (structuredOutput : Option String)
  | error (content : String)
  | other
deriving DecidableEq, Repr

/-- Observable side effects of the modelled code, traced so that theorems can
state what the code does and does not do (in particular: `sendAndWait` never
sends a kill signal). -/
inductive Action where
  | emitChunk
  | emitWarning
  | killSignal (signal : String)
deriving DecidableEq, Repr

/-- Default response-size bound: `10 * 1024 * 1024` (10MB), part_002 second
document line 482. -/
def maxResponseSizeDefault : Nat := 10 * 1024 * 1024

/-- `this.config.maxResponseSize || 10MB`: a `0`/unset configuration value is
falsy in JavaScript, so the default applies. -/
def effectiveMaxSize (maxResponseSize : Nat) : Nat :=
  if maxResponseSize = 0 then maxResponseSizeDefault else maxResponseSize

/-- The `for await` accumulation loop of `sendAndWait`: `fullResponse`,
`result`, `truncated` mirror the local variables; an `error` chunk throws,
ending the loop.  The appended-size check is
`fullResponse.length + (chunk.content?.length || 0) < maxSize`. -/
def sendAndWaitLoop (maxSize : Nat) :
    List WChunk → String → Option (String × Option String) → Bool → List Action →
    Except String (String × Option (String × Option String) × Bool × List Action)
  | [], fullResponse, result, truncated, trace =>
    Except.ok (fullResponse, result, truncated, trace)
  | WChunk.text c :: rest, fullResponse, result, truncated, trace =>
    if fullResponse.length + c.length < maxSize then
      sendAndWaitLoop maxSize rest (fullResponse ++ c) result truncated
        (trace ++ [Action.emitChunk])
    else if !truncated then
      sendAndWaitLoop maxSize rest fullResponse result true
        (trace ++ [Action.emitWarning, Action.emitChunk])
    else
      sendAndWaitLoop maxSize rest fullResponse result truncated
        (trace ++ [Action.emitChunk])
  | WChunk.result c so :: rest, fullResponse, _, truncated, trace =>
    sendAndWaitLoop maxSize rest fullResponse (some (c, so)) truncated trace
  | WChunk.error c :: _, _, _, _, _ =>
    Except.error c
  | WChunk.other :: rest, fullResponse, result, truncated, trace =>
    sendAndWaitLoop maxSize rest fullResponse result truncated trace

/-- Value returned by `sendAndWait` (its `metadata` is the pass-through
fields of the result chunk plus the `truncated` flag; only `truncated` is
modelled, the rest is opaque pass-through). -/
structure WaitResponse where
  text : String
  result : String
  truncated : Bool
  structuredOutput : Option String
deriving DecidableEq, Repr

/-- `BaseLLMAdapter.sendAndWait` over a fully materialised chunk sequence.
`result: result?.content || fullResponse` uses JavaScript string falsiness. -/
def sendAndWait (maxResponseSize : Nat) (chunks : List WChunk) :
    Except String (WaitResponse × List Action) :=
  let maxSize := effectiveMaxSize maxResponseSize
  match sendAndWaitLoop maxSize chunks "" none false [] with
  | Except.error e => Except.error e
  | Except.ok (fullResponse, result, truncated, trace) =>
    Except.ok
      ({ text := fullResponse
         result := jsOr ((result.map Prod.fst).getD "") fullResponse
         truncated := truncated
         structuredOutput := result.bind Prod.snd }, trace)

/-! ## `SessionManager` operations (part_002, first document) -/

/-- Entry of `SessionManager.listSessions` (part_002 lines 283-298). -/
structure SessionListing where
  sessionId : String
  adapter : String
  active : Bool
  createdAt : Nat
  lastActivity : Nat
  ageMs : Nat
  idleMs : Nat
deriving DecidableEq, Repr

/-- Value returned by `SessionManager.getSessionStatus` (part_002
lines 229-237). -/
structure StatusReport where
  sessionId : String
  status : Status
  lastActivity : Nat
  messageCount : Nat
  adapterName : String
  hasActiveProcess : Bool
  idleMs : Nat
deriving DecidableEq, Repr

namespace Manager

/-- `SessionManager.terminateSession` (part_002 lines 303-315): `false` when
the session is unknown; otherwise delegate to the adapter's `terminate`,
delete the bookkeeping entry, return `true`.  Total: no throwing path. -/
def terminateSession (m : Manager) (sessionId : String) : Bool × Manager :=
  match m.sessions.get sessionId with
  | none => (false, m)
  | some sess =>
    let m1 :=
      match m.adapters.get sess.adapterName with
      | some a =>
        { m with adapters := m.adapters.set sess.adapterName (a.terminate sessionId) }
      | none => m
    (true, { m1 with sessions := m1.sessions.delete sessionId })

/-- One iteration of the scan in `SessionManager._cleanupOldestSession`
(part_002 lines 362-367): `oldestTime` starts at `Infinity` (modelled by the
`none` accumulator) and a strictly smaller `lastActivity` replaces it, so
ties keep the earlier entry in iteration order. -/
def oldestStep (acc : Option (String × Nat)) (p : String × RSession) :
    Option (String × Nat) :=
  match acc with
  | none => some (p.1, p.2.lastActivity)
  | some q => if p.2.lastActivity < q.2 then some (p.1, p.2.lastActivity) else acc

/-- The scan of `SessionManager._cleanupOldestSession` (part_002
lines 358-367). -/
def oldestEntry (sessions : JMap RSession) : Option (String × Nat) :=
  List.foldl oldestStep none sessions

/-- `SessionManager._cleanupOldestSession` (part_002 lines 358-373). -/
def cleanupOldestSession (m : Manager) : Manager :=
  match oldestEntry m.sessions with
  | some q => (terminateSession m q.1).2
  | none => m

/-- `SessionManager.createSession` (part_002 lines 88-140).  `freshId` stands
for `this.generateSessionId()` (16 random bytes, hex) and is used when
`options.sessionId` is falsy; `now` is `Date.now()`.  The pair keeps the
post-mutation state even when the call throws (eviction may already have
run before `spawn` rejects).  In JavaScript the local `adapter` variable
aliases the registered adapter object, which eviction mutates in place, so
the model re-reads the adapter from the post-eviction state before `spawn`
(the `none` re-read branch is unreachable: eviction never unregisters). -/
def createSession (m : Manager) (opts : CreateOptions) (freshId : String) (now : Nat) :
    Except String CreateResult × Manager :=
  let adapterName := (opts.adapter).getD m.defaultAdapter
  match m.adapters.get adapterName with
  | none => (Except.error ("Adapter '" ++ adapterName ++ "' not registered"), m)
  | some adapter0 =>
    if adapter0.available = false then
      (Except.error ("Adapter '" ++ adapterName ++ "' CLI not available"), m)
    else
      let m1 := if m.sessions.size ≥ m.maxSessions then cleanupOldestSession m else m
      let sessionId := if strTruthy opts.sessionId then (opts.sessionId).getD "" else freshId
      match m1.adapters.get adapterName with
      | none => (Except.error ("Adapter '" ++ adapterName ++ "' not registered"), m1)
      | some adapter1 =>
        match adapter1.spawn sessionId opts with
        | Except.error e => (Except.error e, m1)
        | Except.ok adapter2 =>
          let m2 := { m1 with
            adapters := m1.adapters.set adapterName adapter2
            sessions := (m1.sessions.set sessionId
              { sessionId := sessionId
                adapterName := adapterName
                createdAt := now
                lastActivity := now
                status := Status.stable
                messageCount := 0 }) }
          (Except.ok { sessionId := sessionId, adapter := adapterName, status := "ready" }, m2)

/-- `SessionManager.send` (part_002 lines 145-176).  The awaited
`adapter.sendAndWait` call is the `outcome` parameter (`Except.error` for a
rejection/throw).  `now` is `Date.now()` at entry, `nowEnd` at completion.
The code first sets `lastActivity`/`status='running'`/`messageCount++`, then
on success sets status `stable`, and in `catch` sets status `error` and
rethrows — the session is never deleted. -/
def send (m : Manager) (sessionId : String) (outcome : Except String WaitResponse)
    (now nowEnd : Nat) : Except String WaitResponse × Manager :=
  match m.sessions.get sessionId with
  | none => (Except.error ("Session '" ++ sessionId ++ "' not found"), m)
  | some sess =>
    match m.adapters.get sess.adapterName with
    | none => (Except.error ("Adapter '" ++ sess.adapterName ++ "' not found"), m)
    | some _ =>
      let sessStarted := { sess with
        lastActivity := now
        status := Status.running
        messageCount := sess.messageCount + 1 }
      match outcome with
      | Except.ok r =>
        (Except.ok r,
         { m with sessions := (m.sessions.set sessionId
             { sessStarted with status := Status.stable, lastActivity := nowEnd }) })
      | Except.error e =>
        (Except.error e,
         { m with sessions := (m.sessions.set sessionId
             { sessStarted with status := Status.error, lastActivity := nowEnd }) })

/-- `SessionManager.getSessionStatus` (part_002 lines 220-238): `none` only
when the session is unknown; `hasActiveProcess` is
`adapter?.activeProcesses?.has(sessionId) || false`. -/
def getSessionStatus (m : Manager) (sessionId : String) (now : Nat) :
    Option StatusReport :=
  match m.sessions.get sessionId with
  | none => none
  | some sess =>
    let hasActiveProcess :=
      match m.adapters.get sess.adapterName with
      | some a => a.activeProcesses.has sessionId
      | none => false
    some
      { sessionId := sessionId
        status := sess.status
        lastActivity := sess.lastActivity
        messageCount := sess.messageCount
        adapterName := sess.adapterName
        hasActiveProcess := hasActiveProcess
        idleMs := now - sess.lastActivity }

/-- `SessionManager.listSessions` (part_002 lines 283-298). -/
def listSessions (m : Manager) (now : Nat) : List SessionListing :=
  List.map
    (fun p =>
      { sessionId := p.1
        adapter := p.2.adapterName
        active :=
          match m.adapters.get p.2.adapterName with
          | some a => a.isSessionActive p.1
          | none => false
        createdAt := p.2.createdAt
        lastActivity := p.2.lastActivity
        ageMs := now - p.2.createdAt
        idleMs := now - p.2.lastActivity })
    m.sessions

end Manager

/-! ## Stream normalization: `_runClaudeCommandStreaming`
(claude-code.js lines 271-498) and the goose stream finalization
(goose.js lines 199-235).

`JSON.parse` on a line is external; it is modelled as an oracle
`parse : String → Option Msg` (`none` = the parse threw). -/

/-- A content block of an assistant message (`msg.message.content[i]`):
the code branches on `block.type === 'text'` (with truthy `block.text`) and
`block.type === 'tool_use'`; anything else is skipped.  Tool inputs are
opaque JSON values carried as strings. -/
inductive Block where
  | text (text : String)
  | toolUse (name : String) (input : String)
  | other
deriving DecidableEq, Repr

/-- The fields of a parsed stream-json line that
`_runClaudeCommandStreaming` reads (claude-code.js lines 363-432).  A field
the line does not carry is `none` (JavaScript `undefined`). -/
structure Msg where
  session_id : Option String := none
  type : Option String := none
  messageContent : Option (List Block) := none
  messageSessionId : Option String := none
  toolName : Option String := none
  name : Option String := none
  toolInput : Option String := none
  input : Option String := none
  result : Option String := none
  content : Option String := none
  structured_output : Option String := none
deriving DecidableEq, Repr

/-- Normalized events yielded by the adapter generators.  The `result`
event's usage statistics are opaque pass-through and omitted from the
model. -/
inductive CEvent where
  | progress (progressType : String) (content : String)
  | toolUse (tool : String) (input : String)
  | toolResult (content : String)
  | result (content : String) (sessionId : Option String)
      (structuredOutput : Option String)
  | error (content : String) (timedOut : Bool)
deriving DecidableEq, Repr

/-- One observable step of the streaming loop: an event yielded to the
consumer, or a chunk broadcast on the adapter's event emitter. -/
inductive Trace where
  | yielded (e : CEvent)
  | emittedChunk (chunk : String) (progressType : Option String)
  | emittedTool (tool : String)
deriving DecidableEq, Repr

/-- Mutable locals of the line-processing loop (claude-code.js
lines 313-316). -/
structure LineState where
  claudeSessionId : Option String := none
  lastAssistantContent : String := ""
  finalResult : Option Msg := none
deriving DecidableEq, Repr

/-- JavaScript `a || b` on optional object-valued fields (an object is
truthy whenever present). -/
def jsOrOpt (a b : Option String) : Option String :=
  match a with
  | some x => some x
  | none => b

/-- Handling of one assistant content block (claude-code.js
lines 374-403). -/
def handleBlock (st : LineState) (b : Block) : LineState × List Trace :=
  match b with
  | Block.text t =>
    if t ≠ "" then
      ({ st with lastAssistantContent := t },
       [Trace.yielded (CEvent.progress "assistant" t),
        Trace.emittedChunk t (some "assistant")])
    else (st, [])
  | Block.toolUse name input =>
    (st, [Trace.yielded (CEvent.toolUse name input), Trace.emittedTool name])
  | Block.other => (st, [])

/-- Left-to-right handling of an assistant message's content blocks. -/
def handleBlocks (st : LineState) : List Block → LineState × List Trace
  | [] => (st, [])
  | b :: rest =>
    let s1 := handleBlock st b
    let s2 := handleBlocks s1.1 rest
    (s2.1, s1.2 ++ s2.2)

/-- Dispatch on one successfully parsed line (claude-code.js
lines 363-432): capture `session_id`, then branch on the message type.
`msg.result` truthiness gates the final-result capture; the tool name falls
back through `msg.tool?.name || msg.name || 'unknown'`. -/
def handleMsg (st : LineState) (msg : Msg) : LineState × List Trace :=
  let st0 :=
    if strTruthy msg.session_id then { st with claudeSessionId := msg.session_id } else st
  if msg.type = some "assistant" ∧ msg.messageContent.isSome then
    handleBlocks st0 ((msg.messageContent).getD [])
  else if msg.type = some "tool_use" then
    let toolName := jsOr ((msg.toolName).getD "") (jsOr ((msg.name).getD "") "unknown")
    let toolInput := (jsOrOpt msg.toolInput msg.input).getD "\x7b\x7d"
    (st0, [Trace.yielded (CEvent.toolUse toolName toolInput), Trace.emittedTool toolName])
  else if msg.type = some "tool_result" then
    (st0, [Trace.yielded (CEvent.toolResult
      (jsOr ((msg.result).getD "") ((msg.content).getD "")))])
  else if msg.type = some "result" ∨ strTruthy msg.result then
    ({ st0 with finalResult := some msg }, [])
  else if msg.type = some "system" ∧ strTruthy msg.messageSessionId then
    ({ st0 with claudeSessionId := msg.messageSessionId }, [])
  else (st0, [])

/-- Processing of one complete line (claude-code.js lines 359-441): blank
lines are skipped; a line that parses is dispatched; a parse failure is NOT
fatal — the raw line is emitted as an unstructured chunk and the loop
continues. -/
def processLine (parse : String → Option Msg) (st : LineState) (line : String) :
    LineState × List Trace :=
  if jsTrim line = "" then (st, [])
  else
    match parse line with
    | some msg => handleMsg st msg
    | none => (st, [Trace.emittedChunk line none])

/-- The per-line loop over the complete lines of the stream. -/
def processLines (parse : String → Option Msg) (st : LineState) :
    List String → LineState × List Trace
  | [] => (st, [])
  | l :: rest =>
    let s1 := processLine parse st l
    let s2 := processLines parse s1.1 rest
    (s2.1, s1.2 ++ s2.2)

/-- `${exitCode}` in a template literal (`null` prints as "null"). -/
def exitCodeText : Option Int → String
  | none => "null"
  | some c => toString c

/-- Grace window of the two-phase kill escalation: the inner
`setTimeout(..., 2000)` of the timeout handler (claude-code.js line 326)
and of `terminate` (claude-code.js line 652). -/
def gracePeriodMs : Nat := 2000

/-- The timeout handler of `_runClaudeCommandStreaming` (claude-code.js
lines 319-327): at expiry it calls `proc.kill('SIGTERM')`; `gracePeriodMs`
later it sends SIGKILL only if `!proc.killed`.  `killedFlag` is Node's
`ChildProcess.killed` at the grace check: Node sets it to `true` when a
`kill()` call successfully SENDS a signal — it does not mean the process
exited.  A process alive at expiry receives the SIGTERM send successfully,
so at the grace check `killedFlag = true` and the SIGKILL branch is skipped
even if the process ignored SIGTERM and is still alive; the branch fires
only when the SIGTERM send itself failed (process already gone).  Each
entry is (milliseconds after expiry, signal). -/
def timeoutKillSignals (killedFlag : Bool) : List (Nat × String) :=
  (0, "SIGTERM") :: (if killedFlag then [] else [(gracePeriodMs, "SIGKILL")])

/-- Stream finalization of `_runClaudeCommandStreaming` after
`processComplete` resolves (claude-code.js lines 462-488): the events
yielded after the line loop ends.  Priority: timeout, then process error,
then non-zero exit (`exitCode !== 0`, where a still-`null` code also
differs from 0), then the final result.  The error events carry no
`timedOut` field except the timeout one (an absent field is falsy). -/
def claudeFinalize (timedOut : Bool) (processError : Option String)
    (exitCode : Option Int) (finalResult : Option Msg)
    (lastAssistantContent : String) (claudeSessionId : Option String) : List CEvent :=
  if timedOut then [CEvent.error "Request timed out" true]
  else
    match processError with
    | some e => [CEvent.error e false]
    | none =>
      if exitCode ≠ some 0 then
        [CEvent.error ("Process exited with code " ++ exitCodeText exitCode) false]
      else
        [CEvent.result
          (jsOr ((finalResult.bind Msg.result).getD "") lastAssistantContent)
          claudeSessionId
          (finalResult.bind Msg.structured_output)]

/-- Fields of a parsed goose JSON result that the finalization reads
(goose.js line 224). -/
structure GooseResult where
  response : Option String := none
  result : Option String := none
deriving DecidableEq, Repr

/-- Stream finalization of the goose streaming runner (goose.js
lines 199-235): timeout, then process error, then — ONLY when the exit code
is non-zero AND no stdout was captured (`exitCode !== 0 && !fullOutput`) —
an error carrying the captured stderr; otherwise a result whose content is
`result?.response || result?.result || fullOutput.trim()` with `result`
the best-effort `JSON.parse` of the trimmed output. -/
def gooseFinalize (parse : String → Option GooseResult) (timedOut : Bool)
    (processError : Option String) (exitCode : Option Int)
    (fullOutput stderrOutput : String) : List CEvent :=
  if timedOut then [CEvent.error "Request timed out" true]
  else
    match processError with
    | some e => [CEvent.error e false]
    | none =>
      if exitCode ≠ some 0 ∧ fullOutput = "" then
        [CEvent.error
          ("Goose exited with code " ++ exitCodeText exitCode ++ ": " ++ stderrOutput)
          false]
      else
        let r := parse (jsTrim fullOutput)
        [CEvent.result
          (jsOr ((r.bind GooseResult.response).getD "")
            (jsOr ((r.bind GooseResult.result).getD "") (jsTrim fullOutput)))
          none none]

/-! ## `SessionManager.sendStream` consumption semantics (part_002
lines 181-208).

`sendStream` is an async generator.  Its body runs only as the caller
pulls: nothing executes before the first `next()`; each `next()` resumes to
the following `yield chunk`; the `session.status = 'stable'` line after the
loop runs only on the pull past the last adapter event (and the `catch`
branch only when that resume re-raises the adapter's error).  If the caller
abandons the generator after `k ≥ 1` pulls with events remaining, the
runtime's `generator.return()` ends execution at the suspended `yield`
inside the `try` — there is no `finally`, so neither the post-loop
assignment nor the `catch` runs, and the status set before the loop
(`'running'`) persists. -/

/-- The adapter stream's behaviour: its yielded events followed by how it
terminates (normal completion or a raise). -/
inductive StreamTerminal where
  | complete
  | raise (msg : String)
deriving DecidableEq, Repr

namespace Manager

/-- Registry state after the caller makes `pulls` calls to `next()` on
`sendStream(sessionId, ...)` and then abandons the generator, where the
adapter stream yields `numEvents` events and then terminates as
`terminal`.  `now` is `Date.now()` at body start, `nowEnd` at
completion. -/
def sendStreamRun (m : Manager) (sessionId : String) (numEvents : Nat)
    (terminal : StreamTerminal) (pulls : Nat) (now nowEnd : Nat) : Manager :=
  if pulls = 0 then m
  else
    match m.sessions.get sessionId with
    | none => m
    | some sess =>
      match m.adapters.get sess.adapterName with
      | none => m
      | some _ =>
        let sessStarted := { sess with
          lastActivity := now
          status := Status.running
          messageCount := sess.messageCount + 1 }
        if pulls ≤ numEvents then
          { m with sessions := m.sessions.set sessionId sessStarted }
        else
          let finalStatus :=
            match terminal with
            | StreamTerminal.complete => Status.stable
            | StreamTerminal.raise _ => Status.error
          { m with sessions := (m.sessions.set sessionId
              { sessStarted with status := finalStatus, lastActivity := nowEnd }) }

end Manager

/-- Whether a normalized event is an `error` event. -/
def CEvent.isError : CEvent → Bool
  | CEvent.error _ _ => true
  | _ => false

/-- Whether a normalized event is a final `result` event. -/
def CEvent.isResult : CEvent → Bool
  | CEvent.result _ _ _ => true
  | _ => false

/-- The events yielded to the generator's consumer (the emitter broadcasts
are dropped). -/
def yieldedOf (ts : List Trace) : List CEvent :=
  ts.filterMap fun t =>
    match t with
    | Trace.yielded e => some e
    | _ => none

/-- The full event sequence yielded by `_runClaudeCommandStreaming` for a
fully read stdout stream: the events of the line loop followed by the
finalization after `processComplete` (claude-code.js lines 350-488). -/
def claudeStreamEvents (parse : String → Option Msg) (lines : List String)
    (timedOut : Bool) (processError : Option String) (exitCode : Option Int) :
    List CEvent :=
  let s := processLines parse {} lines
  yieldedOf s.2 ++
    claudeFinalize timedOut processError exitCode s.1.finalResult
      s.1.lastAssistantContent s.1.claudeSessionId

/-- Concatenation of the contents of the `text` chunks of a sequence (what
`sendAndWait` accumulates when nothing is discarded). -/
def textConcat : List WChunk → String
  | [] => ""
  | WChunk.text c :: rest => c ++ textConcat rest
  | WChunk.result _ _ :: rest => textConcat rest
  | WChunk.error _ :: rest => textConcat rest
  | WChunk.other :: rest => textConcat rest

/-! ## Concrete fixtures used to evaluate the model on closed inputs -/

/-- A registered adapter that already tracks one session "s". -/
def adapterFix : Adapter :=
  { sessions := [("s", {})], activeProcesses := [], available := true }

/-- Registry bookkeeping for session "s". -/
def sessFix : RSession :=
  { sessionId := "s", adapterName := "claude-code", createdAt := 0,
    lastActivity := 5, status := Status.stable, messageCount := 0 }

/-- A manager with one session "s" bound to the "claude-code" adapter,
below its session cap. -/
def managerFix : Manager :=
  { adapters := [("claude-code", adapterFix)], sessions := [("s", sessFix)] }

/-- A `sendAndWait` response fixture. -/
def wrFix : WaitResponse :=
  { text := "hello", result := "hello", truncated := false, structuredOutput := none }

/-- The response `sendAndWait` produces for the two text chunks "ab", "c"
under the default bound. -/
def wrAbcFix : WaitResponse :=
  { text := "abc", result := "abc", truncated := false, structuredOutput := none }

/-- Adapter tracking session "X" (capacity-eviction scenario). -/
def capAdapterFix : Adapter :=
  { sessions := [("X", {})], activeProcesses := [], available := true }

/-- A manager at its configured maximum (1 session) whose only — hence
least-recently-active — session is "X". -/
def capManagerFix : Manager :=
  { adapters := [("claude-code", capAdapterFix)],
    sessions := [("X",
      { sessionId := "X", adapterName := "claude-code", createdAt := 0,
        lastActivity := 3, status := Status.stable, messageCount := 0 })],
    maxSessions := 1 }

/-- `createSession` options naming the already-tracked session "X". -/
def optsXFix : CreateOptions :=
  { adapter := some "claude-code", sessionId := some "X", workDir := none }

/-- `createSession` options naming the already-tracked session "s". -/
def optsXSFix : CreateOptions :=
  { adapter := some "claude-code", sessionId := some "s", workDir := none }

/-- Adapter tracking the two capacity-scenario sessions. -/
def evictAdapterFix : Adapter :=
  { sessions := [("old", {}), ("new", {})], activeProcesses := [],
    available := true }

/-- Bookkeeping of the strictly least-recently-active session "old". -/
def evictOldSessFix : RSession :=
  { sessionId := "old", adapterName := "claude-code", createdAt := 0,
    lastActivity := 3, status := Status.stable, messageCount := 1 }

/-- `createSession` options for the eviction scenario (no caller-supplied
session id). -/
def evictOptsFix : CreateOptions :=
  { adapter := some "claude-code", sessionId := none, workDir := none }

/-- A manager at its configured maximum (2 sessions) with "old" strictly
least-recently-active. -/
def evictManagerFix : Manager :=
  { adapters := [("claude-code", evictAdapterFix)],
    sessions :=
      [("old", evictOldSessFix),
       ("new",
        { sessionId := "new", adapterName := "claude-code", createdAt := 1,
          lastActivity := 9, status := Status.stable, messageCount := 2 })],
    maxSessions := 2 }

/-! ## Lemmas about the `JMap` model -/

namespace JMap

theorem get_set_self {α : Type} (m : JMap α) (k : String) (v : α) :
    (m.set k v).get k = some v := by
  induction m with
  | nil => simp [JMap.set, JMap.get]
  | cons hd tl ih =>
    by_cases h : hd.1 = k
    · simp [JMap.set, JMap.get, h]
    · simp [JMap.set, JMap.get, h, ih]

theorem get_set_ne {α : Type} (m : JMap α) (k k' : String) (v : α) (h : k' ≠ k) :
    (m.set k v).get k' = m.get k' := by
  have h' : ¬k = k' := fun hh => h hh.symm
  induction m with
  | nil => simp [JMap.set, JMap.get, h']
  | cons hd tl ih =>
    obtain ⟨k1, v1⟩ := hd
    by_cases h1 : k1 = k
    · subst h1
      simp [JMap.set, JMap.get, h']
    · by_cases h2 : k1 = k'
      · simp [JMap.set, JMap.get, h1, h2, h]
      · simp [JMap.set, JMap.get, h1, h2, ih]

theorem mem_keys_of_get_some {α : Type} (m : JMap α) (k : String) (v : α)
    (h : m.get k = some v) : k ∈ m.map Prod.fst := by
  induction m with
  | nil => simp [JMap.get] at h
  | cons hd tl ih =>
    obtain ⟨k1, v1⟩ := hd
    by_cases h1 : k1 = k
    · simp [h1]
    · simp only [JMap.get, if_neg h1] at h
      simp only [List.map_cons, List.mem_cons]
      exact Or.inr (ih h)

theorem delete_of_get_none {α : Type} (m : JMap α) (k : String)
    (h : m.get k = none) : m.delete k = m := by
  induction m with
  | nil => simp [JMap.delete]
  | cons hd tl ih =>
    obtain ⟨k1, v1⟩ := hd
    by_cases h1 : k1 = k
    · simp only [JMap.get, if_pos h1] at h
      exact absurd h (by simp)
    · simp only [JMap.get, if_neg h1] at h
      simp only [JMap.delete, if_neg h1]
      rw [ih h]

theorem get_delete_ne {α : Type} (m : JMap α) (k k' : String) (h : k' ≠ k) :
    (m.delete k).get k' = m.get k' := by
  induction m with
  | nil => simp [JMap.delete]
  | cons hd tl ih =>
    obtain ⟨k1, v1⟩ := hd
    by_cases h1 : k1 = k
    · have h2 : ¬k1 = k' := fun hh => h (hh.symm.trans h1)
      simp only [JMap.delete, if_pos h1, JMap.get, if_neg h2]
    · simp [JMap.delete, JMap.get, h1, ih]

theorem keys_delete_subset {α : Type} (m : JMap α) (k x : String)
    (h : x ∈ (m.delete k).map Prod.fst) : x ∈ m.map Prod.fst := by
  induction m with
  | nil => simp [JMap.delete] at h
  | cons hd tl ih =>
    obtain ⟨k1, v1⟩ := hd
    simp only [List.map_cons, List.mem_cons]
    by_cases h1 : k1 = k
    · simp only [JMap.delete, if_pos h1] at h
      exact Or.inr h
    · simp only [JMap.delete, if_neg h1, List.map_cons, List.mem_cons] at h
      rcases h with h | h
      · exact Or.inl h
      · exact Or.inr (ih h)

theorem nodup_delete {α : Type} (m : JMap α) (k : String)
    (h : NodupKeys m) : NodupKeys (m.delete k) := by
  induction m with
  | nil => simpa [JMap.delete] using h
  | cons hd tl ih =>
    obtain ⟨k1, v1⟩ := hd
    simp only [NodupKeys, List.map_cons, List.nodup_cons] at h
    by_cases h1 : k1 = k
    · simp only [JMap.delete, if_pos h1]
      exact h.2
    · simp only [JMap.delete, if_neg h1, NodupKeys, List.map_cons, List.nodup_cons]
      exact ⟨fun hin => h.1 (keys_delete_subset tl k k1 hin), ih h.2⟩

theorem get_delete_self {α : Type} (m : JMap α) (k : String)
    (h : NodupKeys m) : (m.delete k).get k = none := by
  induction m with
  | nil => simp [JMap.delete, JMap.get]
  | cons hd tl ih =>
    obtain ⟨k1, v1⟩ := hd
    simp only [NodupKeys, List.map_cons, List.nodup_cons] at h
    by_cases h1 : k1 = k
    · simp only [JMap.delete, if_pos h1]
      cases hget : JMap.get tl k with
      | none => rfl
      | some v => exact absurd (mem_keys_of_get_some tl k v hget) (h1 ▸ h.1)
    · simp only [JMap.delete, JMap.get, if_neg h1]
      exact ih h.2

theorem get_none_of_get_none_delete {α : Type} (m : JMap α) (k k' : String)
    (h : m.get k' = none) : (m.delete k).get k' = none := by
  by_cases h1 : k' = k
  · subst h1
    rw [delete_of_get_none m k' h]
    exact h
  · rw [get_delete_ne m k k' h1]
    exact h

theorem mem_keys_set {α : Type} (m : JMap α) (k x : String) (v : α)
    (h : x ∈ (m.set k v).map Prod.fst) : x = k ∨ x ∈ m.map Prod.fst := by
  induction m with
  | nil => simpa [JMap.set] using h
  | cons hd tl ih =>
    obtain ⟨k1, v1⟩ := hd
    simp only [List.map_cons, List.mem_cons]
    by_cases h1 : k1 = k
    · simp only [JMap.set, if_pos h1, List.map_cons, List.mem_cons] at h
      rcases h with h | h
      · exact Or.inr (Or.inl h)
      · exact Or.inr (Or.inr h)
    · simp only [JMap.set, if_neg h1, List.map_cons, List.mem_cons] at h
      rcases h with h | h
      · exact Or.inr (Or.inl h)
      · rcases ih h with h2 | h2
        · exact Or.inl h2
        · exact Or.inr (Or.inr h2)

theorem nodup_set {α : Type} (m : JMap α) (k : String) (v : α)
    (h : NodupKeys m) : NodupKeys (m.set k v) := by
  induction m with
  | nil => simp [JMap.set, NodupKeys]
  | cons hd tl ih =>
    obtain ⟨k1, v1⟩ := hd
    simp only [NodupKeys, List.map_cons, List.nodup_cons] at h
    by_cases h1 : k1 = k
    · simp only [JMap.set, if_pos h1, NodupKeys, List.map_cons, List.nodup_cons]
      exact ⟨h.1, h.2⟩
    · simp only [JMap.set, if_neg h1, NodupKeys, List.map_cons, List.nodup_cons]
      refine ⟨fun hin => ?_, ih h.2⟩
      rcases mem_keys_set tl k k1 v hin with h2 | h2
      · exact h1 h2
      · exact h.1 h2

theorem countKey_eq_zero {α : Type} (m : JMap α) (k : String)
    (h : k ∉ m.map Prod.fst) : countKey m k = 0 := by
  induction m with
  | nil => simp [countKey]
  | cons hd tl ih =>
    obtain ⟨k1, v1⟩ := hd
    simp only [List.map_cons, List.mem_cons, not_or] at h
    have hne : ¬k1 = k := fun hh => h.1 hh.symm
    have htl : countKey tl k = 0 := ih h.2
    simp only [countKey, List.filter_cons] at htl ⊢
    simp [hne, htl]

theorem countKey_le_one {α : Type} (m : JMap α) (k : String)
    (h : NodupKeys m) : countKey m k ≤ 1 := by
  induction m with
  | nil => simp [countKey]
  | cons hd tl ih =>
    obtain ⟨k1, v1⟩ := hd
    simp only [NodupKeys, List.map_cons, List.nodup_cons] at h
    by_cases h1 : k1 = k
    · have hz : countKey tl k = 0 := countKey_eq_zero tl k (h1 ▸ h.1)
      simp only [countKey, List.filter_cons] at hz ⊢
      simp [h1, hz]
    · have htl := ih h.2
      simp only [countKey, List.filter_cons] at htl ⊢
      simp [h1, htl]

theorem mem_get {α : Type} (m : JMap α) (k : String) (v : α)
    (hn : NodupKeys m) (hm : (k, v) ∈ m) : m.get k = some v := by
  induction m with
  | nil => simp at hm
  | cons hd tl ih =>
    obtain ⟨k1, v1⟩ := hd
    simp only [NodupKeys, List.map_cons, List.nodup_cons] at hn
    rcases List.mem_cons.mp hm with h | h
    · injection h with hk hv
      subst hk
      subst hv
      simp [JMap.get]
    · by_cases h1 : k1 = k
      · exact absurd (h1.symm ▸ List.mem_map_of_mem Prod.fst h) hn.1
      · simp only [JMap.get, if_neg h1]
        exact ih hn.2 h

theorem not_mem_of_get_none {α : Type} (m : JMap α) (k : String) (v : α)
    (h : m.get k = none) : (k, v) ∉ m := by
  induction m with
  | nil => simp
  | cons hd tl ih =>
    obtain ⟨k1, v1⟩ := hd
    by_cases h1 : k1 = k
    · simp only [JMap.get, if_pos h1] at h
      exact absurd h (by simp)
    · simp only [JMap.get, if_neg h1] at h
      simp only [List.mem_cons, not_or]
      exact ⟨fun hh => h1 (congrArg Prod.fst hh).symm, ih h⟩

end JMap

/-! ## Lemmas about the eviction scan -/

theorem oldestFold_some_le (l : JMap RSession) (q0 : String × Nat) :
    ∃ q, List.foldl Manager.oldestStep (some q0) l = some q ∧ q.2 ≤ q0.2 := by
  induction l generalizing q0 with
  | nil => exact ⟨q0, rfl, le_refl _⟩
  | cons hd tl ih =>
    by_cases h : hd.2.lastActivity < q0.2
    · obtain ⟨q, hq, hle⟩ := ih (hd.1, hd.2.lastActivity)
      refine ⟨q, ?_, le_trans hle (le_of_lt h)⟩
      rw [List.foldl_cons]
      simpa [Manager.oldestStep, h] using hq
    · obtain ⟨q, hq, hle⟩ := ih q0
      refine ⟨q, ?_, hle⟩
      rw [List.foldl_cons]
      simpa [Manager.oldestStep, h] using hq

theorem oldestFold_min (l : JMap RSession) :
    ∀ (acc : Option (String × Nat)) (q : String × Nat) (p : String × RSession),
      List.foldl Manager.oldestStep acc l = some q → p ∈ l →
      q.2 ≤ p.2.lastActivity := by
  induction l with
  | nil =>
    intro acc q p _ hp
    simp at hp
  | cons hd tl ih =>
    intro acc q p hfold hp
    rw [List.foldl_cons] at hfold
    rcases List.mem_cons.mp hp with h | h
    · subst h
      have hstep : ∃ q1, Manager.oldestStep acc p = some q1 ∧
          q1.2 ≤ p.2.lastActivity := by
        cases acc with
        | none => exact ⟨(p.1, p.2.lastActivity), rfl, le_refl _⟩
        | some q0 =>
          by_cases hlt : p.2.lastActivity < q0.2
          · exact ⟨(p.1, p.2.lastActivity), by simp [Manager.oldestStep, hlt], le_refl _⟩
          · exact ⟨q0, by simp [Manager.oldestStep, hlt], le_of_not_lt hlt⟩
      obtain ⟨q1, hq1, hle⟩ := hstep
      rw [hq1] at hfold
      obtain ⟨q2, hq2, hle2⟩ := oldestFold_some_le tl q1
      have hqq : q = q2 := Option.some.inj (hfold.symm.trans hq2)
      rw [hqq]
      exact le_trans hle2 hle
    · exact ih (Manager.oldestStep acc hd) q p hfold h

theorem oldestFold_mem (l : JMap RSession) :
    ∀ (acc : Option (String × Nat)) (q : String × Nat),
      List.foldl Manager.oldestStep acc l = some q →
      acc = some q ∨ ∃ p, p ∈ l ∧ q = (p.1, p.2.lastActivity) := by
  induction l with
  | nil =>
    intro acc q h
    exact Or.inl h
  | cons hd tl ih =>
    intro acc q hfold
    rw [List.foldl_cons] at hfold
    rcases ih (Manager.oldestStep acc hd) q hfold with h | h
    · cases acc with
      | none =>
        have h2 : (hd.1, hd.2.lastActivity) = q := by
          simpa [Manager.oldestStep] using h
        exact Or.inr ⟨hd, List.mem_cons_self hd tl, h2.symm⟩
      | some q0 =>
        by_cases hlt : hd.2.lastActivity < q0.2
        · have h2 : (hd.1, hd.2.lastActivity) = q := by
            simpa [Manager.oldestStep, hlt] using h
          exact Or.inr ⟨hd, List.mem_cons_self hd tl, h2.symm⟩
        · have h2 : q0 = q := by
            simpa [Manager.oldestStep, hlt] using h
          exact Or.inl (by rw [h2])
    · obtain ⟨p, hp, he⟩ := h
      exact Or.inr ⟨p, List.mem_cons_of_mem hd hp, he⟩

theorem oldestEntry_ne_none (l : JMap RSession) (h : l ≠ []) :
    ∃ q, Manager.oldestEntry l = some q := by
  cases l with
  | nil => exact absurd rfl h
  | cons hd tl =>
    obtain ⟨q, hq, _⟩ := oldestFold_some_le tl (hd.1, hd.2.lastActivity)
    refine ⟨q, ?_⟩
    unfold Manager.oldestEntry
    rw [List.foldl_cons]
    have hstep : Manager.oldestStep none hd = some (hd.1, hd.2.lastActivity) := rfl
    rw [hstep, hq]

/-- When one session is strictly least-recently-active, the scan of
`_cleanupOldestSession` selects exactly it. -/
theorem oldestEntry_eq_min (sessions : JMap RSession) (k0 : String) (s0 : RSession)
    (hn : JMap.NodupKeys sessions) (hmem : (k0, s0) ∈ sessions)
    (hmin : ∀ p ∈ sessions, p.1 ≠ k0 → s0.lastActivity < p.2.lastActivity) :
    Manager.oldestEntry sessions = some (k0, s0.lastActivity) := by
  have hne : sessions ≠ [] := fun he => by simp [he] at hmem
  obtain ⟨q, hq⟩ := oldestEntry_ne_none sessions hne
  have hminq := oldestFold_min sessions none q (k0, s0) hq hmem
  rcases oldestFold_mem sessions none q hq with h | h
  · exact absurd h (by simp)
  · obtain ⟨p, hp, he⟩ := h
    by_cases hk : p.1 = k0
    · have hp' : (p.1, p.2) ∈ sessions := by simpa using hp
      have h1 := JMap.mem_get sessions k0 s0 hn hmem
      have h2 := JMap.mem_get sessions p.1 p.2 hn hp'
      rw [hk, h1] at h2
      have h3 : s0 = p.2 := Option.some.inj h2
      rw [hq, he, hk, ← h3]
    · exfalso
      have hlt := hmin p hp hk
      rw [he] at hminq
      simp at hminq
      exact absurd (lt_of_lt_of_le hlt hminq) (lt_irrefl _)

/-! ## Claim C2 -/

/-- C2: for an existing session bound to a registered adapter, a `send`
whose adapter call succeeds leaves the reported status 'stable'; a `send`
whose adapter call raises rethrows, leaves the reported status 'error', and
the session still exists (`getSessionStatus` does not report not-found). -/
theorem claim_C2_send_status (m : Manager) (sid : String) (sess : RSession)
    (a : Adapter) (r : WaitResponse) (e : String) (n1 n2 n3 : Nat)
    (hs : m.sessions.get sid = some sess)
    (ha : m.adapters.get sess.adapterName = some a) :
    ((Manager.send m sid (Except.ok r) n1 n2).1 = Except.ok r ∧
      (Manager.getSessionStatus (Manager.send m sid (Except.ok r) n1 n2).2 sid
          n3).map StatusReport.status = some Status.stable) ∧
    ((Manager.send m sid (Except.error e) n1 n2).1 = Except.error e ∧
      Manager.getSessionStatus (Manager.send m sid (Except.error e) n1 n2).2 sid n3 ≠
        none ∧
      (Manager.getSessionStatus (Manager.send m sid (Except.error e) n1 n2).2 sid
          n3).map StatusReport.status = some Status.error) := by
  refine ⟨⟨?_, ?_⟩, ?_, ?_, ?_⟩ <;>
    simp [Manager.send, hs, ha, Manager.getSessionStatus, JMap.get_set_self]

/-- C2 witness: the theorem applied to the concrete one-session manager. -/
theorem claim_C2_witness :
    managerFix.sessions.get "s" = some sessFix ∧
    managerFix.adapters.get sessFix.adapterName = some adapterFix ∧
    (((Manager.send managerFix "s" (Except.ok wrFix) 1 2).1 = Except.ok wrFix ∧
      (Manager.getSessionStatus (Manager.send managerFix "s" (Except.ok wrFix) 1 2).2
          "s" 3).map StatusReport.status = some Status.stable) ∧
     ((Manager.send managerFix "s" (Except.error "boom") 1 2).1 =
        Except.error "boom" ∧
      Manager.getSessionStatus
          (Manager.send managerFix "s" (Except.error "boom") 1 2).2 "s" 3 ≠ none ∧
      (Manager.getSessionStatus
          (Manager.send managerFix "s" (Except.error "boom") 1 2).2 "s"
          3).map StatusReport.status = some Status.error)) :=
  ⟨rfl, rfl,
    claim_C2_send_status managerFix "s" sessFix adapterFix wrFix "boom" 1 2 3 rfl rfl⟩

/-! ## Claim C5 -/

/-- C5: `terminateSession` is idempotent: for an existing session the first
call returns `true`, an immediately repeated call returns `false`, and a
call on a non-existent session returns `false`; the modelled operation is a
total function (it has no throwing path). -/
theorem claim_C5_terminate_idempotent (m : Manager) (sid : String) (sess : RSession)
    (hn : JMap.NodupKeys m.sessions)
    (hs : m.sessions.get sid = some sess) :
    (Manager.terminateSession m sid).1 = true ∧
    (Manager.terminateSession (Manager.terminateSession m sid).2 sid).1 = false ∧
    ∀ m2 : Manager, m2.sessions.get sid = none →
      (Manager.terminateSession m2 sid).1 = false := by
  refine ⟨?_, ?_, ?_⟩
  · simp [Manager.terminateSession, hs]
  · cases hA : m.adapters.get sess.adapterName with
    | some a =>
      simp [Manager.terminateSession, hs, hA, JMap.get_delete_self m.sessions sid hn]
    | none =>
      simp [Manager.terminateSession, hs, hA, JMap.get_delete_self m.sessions sid hn]
  · intro m2 h2
    simp [Manager.terminateSession, h2]

/-- C5 witness: the theorem applied to the concrete one-session manager. -/
theorem claim_C5_witness :
    JMap.NodupKeys managerFix.sessions ∧
    managerFix.sessions.get "s" = some sessFix ∧
    ((Manager.terminateSession managerFix "s").1 = true ∧
     (Manager.terminateSession (Manager.terminateSession managerFix "s").2 "s").1 =
       false ∧
     ∀ m2 : Manager, m2.sessions.get "s" = none →
       (Manager.terminateSession m2 "s").1 = false) :=
  ⟨by decide, rfl,
    claim_C5_terminate_idempotent managerFix "s" sessFix (by decide) rfl⟩

/-! ## Claim C1 -/

/-- C1 (amended): the `activeProcesses` map registers at most one process
per session at any instant (it is a keyed map, and registration and
deregistration preserve key uniqueness); however, a second send issued
against the same session while one is in flight silently OVERWRITES the
first send's tracking entry — registration (claude-code.js lines 302-305)
is total and has no rejection or queueing path. -/
theorem claim_C1_process_tracking (a : Adapter) (sid : Option String) (p : Proc)
    (hn : JMap.NodupKeys a.activeProcesses) :
    JMap.NodupKeys (a.trackActiveProcess sid p).activeProcesses ∧
    (∀ k, JMap.countKey (a.trackActiveProcess sid p).activeProcesses k ≤ 1) ∧
    JMap.NodupKeys (a.untrackActiveProcess sid).activeProcesses ∧
    (∀ s p1 p2, s ≠ "" →
      ((a.trackActiveProcess (some s) p1).trackActiveProcess
          (some s) p2).activeProcesses.get s = some p2) := by
  refine ⟨?_, ?_, ?_, ?_⟩
  · cases h : strTruthy sid <;> simp [Adapter.trackActiveProcess, h]
    · exact hn
    · exact JMap.nodup_set a.activeProcesses (sid.getD "") p hn
  · intro k
    cases h : strTruthy sid <;> simp [Adapter.trackActiveProcess, h]
    · exact JMap.countKey_le_one a.activeProcesses k hn
    · exact JMap.countKey_le_one _ k
        (JMap.nodup_set a.activeProcesses (sid.getD "") p hn)
  · cases h : strTruthy sid <;> simp [Adapter.untrackActiveProcess, h]
    · exact hn
    · exact JMap.nodup_delete a.activeProcesses (sid.getD "") hn
  · intro s p1 p2 hne
    simp [Adapter.trackActiveProcess, strTruthy, hne, JMap.get_set_self]

/-- C1 witness: the theorem applied to an adapter with an empty tracking
map. -/
theorem claim_C1_witness :
    JMap.NodupKeys adapterFix.activeProcesses ∧
    (JMap.NodupKeys (adapterFix.trackActiveProcess (some "s")
        ⟨1, false⟩).activeProcesses ∧
     (∀ k, JMap.countKey (adapterFix.trackActiveProcess (some "s")
        ⟨1, false⟩).activeProcesses k ≤ 1) ∧
     JMap.NodupKeys (adapterFix.untrackActiveProcess (some "s")).activeProcesses ∧
     (∀ s p1 p2, s ≠ "" →
       ((adapterFix.trackActiveProcess (some s) p1).trackActiveProcess
           (some s) p2).activeProcesses.get s = some p2)) :=
  ⟨by decide, claim_C1_process_tracking adapterFix (some "s") ⟨1, false⟩ (by decide)⟩

/-- C1 counterexample: two sends against the same session "s" both register
their process (claude-code.js line 304); the second registration silently
replaces the first send's entry — the whole map afterwards is the second
process only, and nothing was rejected or queued. -/
theorem claim_C1_counterexample :
    ((Adapter.trackActiveProcess
        (Adapter.trackActiveProcess { } (some "s") ⟨1, false⟩)
        (some "s") ⟨2, false⟩).activeProcesses = [("s", ⟨2, false⟩)]) ∧
    (⟨2, false⟩ : Proc) ≠ ⟨1, false⟩ := by
  decide

/-! ## Claim C7 -/

/-- C7 (amended): `sendStream` updates the session status only when the
caller drains the sequence past its end: a fully drained completion sets
status 'stable' and a fully drained raise sets status 'error', but a caller
that stops consuming while adapter events remain leaves the session status
'running' — the post-loop status assignment (part_002 lines 201-202) sits
after the `yield` loop in the generator body with no `finally`, so it runs
only on the pull past the last event. -/
theorem claim_C7_sendStream_status (m : Manager) (sid : String) (sess : RSession)
    (a : Adapter) (numEvents pulls1 pulls2 pulls3 : Nat) (msg : String)
    (terminal3 : StreamTerminal) (n1 n2 : Nat)
    (hs : m.sessions.get sid = some sess)
    (ha : m.adapters.get sess.adapterName = some a) :
    (pulls1 > numEvents →
      ((Manager.sendStreamRun m sid numEvents StreamTerminal.complete pulls1 n1
          n2).sessions.get sid).map RSession.status = some Status.stable) ∧
    (pulls2 > numEvents →
      ((Manager.sendStreamRun m sid numEvents (StreamTerminal.raise msg) pulls2 n1
          n2).sessions.get sid).map RSession.status = some Status.error) ∧
    (1 ≤ pulls3 → pulls3 ≤ numEvents →
      ((Manager.sendStreamRun m sid numEvents terminal3 pulls3 n1
          n2).sessions.get sid).map RSession.status = some Status.running) := by
  refine ⟨?_, ?_, ?_⟩
  · intro hp
    have hp0 : ¬pulls1 = 0 := by omega
    have hple : ¬pulls1 ≤ numEvents := by omega
    simp [Manager.sendStreamRun, hs, ha, hp0, hple, JMap.get_set_self]
  · intro hp
    have hp0 : ¬pulls2 = 0 := by omega
    have hple : ¬pulls2 ≤ numEvents := by omega
    simp [Manager.sendStreamRun, hs, ha, hp0, hple, JMap.get_set_self]
  · intro h1 h2
    have hp0 : ¬pulls3 = 0 := by omega
    simp [Manager.sendStreamRun, hs, ha, hp0, h2, JMap.get_set_self]

/-- C7 witness: the theorem applied with a 2-event adapter stream, drained
(3 pulls) and abandoned after 1 pull. -/
theorem claim_C7_witness :
    managerFix.sessions.get "s" = some sessFix ∧
    managerFix.adapters.get sessFix.adapterName = some adapterFix ∧
    (3 > 2) ∧ (1 ≤ 1) ∧ (1 ≤ 2) ∧
    ((Manager.sendStreamRun managerFix "s" 2 StreamTerminal.complete 3 1
        2).sessions.get "s").map RSession.status = some Status.stable ∧
    ((Manager.sendStreamRun managerFix "s" 2 (StreamTerminal.raise "boom") 3 1
        2).sessions.get "s").map RSession.status = some Status.error ∧
    ((Manager.sendStreamRun managerFix "s" 2 StreamTerminal.complete 1 1
        2).sessions.get "s").map RSession.status = some Status.running :=
  ⟨rfl, rfl, by decide, by decide, by decide,
    (claim_C7_sendStream_status managerFix "s" sessFix adapterFix 2 3 3 1 "boom"
      StreamTerminal.complete 1 2 rfl rfl).1 (by decide),
    (claim_C7_sendStream_status managerFix "s" sessFix adapterFix 2 3 3 1 "boom"
      StreamTerminal.complete 1 2 rfl rfl).2.1 (by decide),
    (claim_C7_sendStream_status managerFix "s" sessFix adapterFix 2 3 3 1 "boom"
      StreamTerminal.complete 1 2 rfl rfl).2.2 (by decide) (by decide)⟩

/-- C7 counterexample: the adapter stream completes (2 events, terminal
completion), but the caller stops after 1 pull; the registry still reports
'running', not 'stable' — the status update depends on the caller draining
the sequence. -/
theorem claim_C7_counterexample :
    ((Manager.sendStreamRun managerFix "s" 2 StreamTerminal.complete 1 1
        2).sessions.get "s").map RSession.status = some Status.running ∧
    Status.running ≠ Status.stable := by
  decide

/-! ## Claim C10 -/

/-- C10 (amended): when the capacity check does not evict (the registry is
strictly below its maximum), a `createSession` whose caller-supplied
`options.sessionId` is already tracked by the bound (available) adapter
rejects with `Session <id> already exists` and leaves the manager — in
particular the registry entry for that id — completely unchanged. -/
theorem claim_C10_duplicate_spawn (m : Manager) (opts : CreateOptions) (a : Adapter)
    (aName dupId freshId : String) (now : Nat)
    (hname : (opts.adapter).getD m.defaultAdapter = aName)
    (ha : m.adapters.get aName = some a)
    (hav : a.available = true)
    (hsid : opts.sessionId = some dupId)
    (hne : dupId ≠ "")
    (hdup : a.sessions.has dupId = true)
    (hcap : m.sessions.size < m.maxSessions) :
    (Manager.createSession m opts freshId now).1 =
      Except.error ("Session " ++ dupId ++ " already exists") ∧
    (Manager.createSession m opts freshId now).2 = m := by
  have hcap' : ¬m.sessions.size ≥ m.maxSessions := by omega
  constructor <;>
    simp [Manager.createSession, hname, ha, hav, hcap', hsid, strTruthy, hne,
      Adapter.spawn, hdup]

/-- C10 witness: the theorem applied to the below-capacity manager whose
adapter already tracks "s". -/
theorem claim_C10_witness :
    (optsXSFix.adapter).getD managerFix.defaultAdapter = "claude-code" ∧
    managerFix.adapters.get "claude-code" = some adapterFix ∧
    adapterFix.available = true ∧
    optsXSFix.sessionId = some "s" ∧
    "s" ≠ "" ∧
    adapterFix.sessions.has "s" = true ∧
    managerFix.sessions.size < managerFix.maxSessions ∧
    ((Manager.createSession managerFix optsXSFix "fresh" 7).1 =
      Except.error ("Session " ++ "s" ++ " already exists") ∧
     (Manager.createSession managerFix optsXSFix "fresh" 7).2 = managerFix) :=
  ⟨rfl, rfl, rfl, rfl, by decide, rfl, by decide,
    claim_C10_duplicate_spawn managerFix optsXSFix adapterFix "claude-code" "s"
      "fresh" 7 rfl rfl rfl rfl (by decide) rfl (by decide)⟩

/-- C10 counterexample: with the registry at its configured maximum (1) and
the duplicate session "X" also the least-recently-active one, the capacity
eviction terminates "X" first (removing it from the adapter too), so
`spawn` then succeeds — the call does not throw, and the registry entry for
"X" is re-created by the call. -/
theorem claim_C10_counterexample :
    capAdapterFix.sessions.has "X" = true ∧
    (Manager.createSession capManagerFix optsXFix "fresh" 100).1 =
      Except.ok { sessionId := "X", adapter := "claude-code", status := "ready" } ∧
    (Manager.createSession capManagerFix optsXFix "fresh" 100).2.sessions.get "X" =
      some { sessionId := "X", adapterName := "claude-code", createdAt := 100,
             lastActivity := 100, status := Status.stable, messageCount := 0 } :=
  ⟨rfl, rfl, rfl⟩

/-! ## Stream purity of the line loop (helper lemmas for C6) -/

theorem handleBlock_no_error_result (st : LineState) (b : Block) :
    ∀ e ∈ yieldedOf (handleBlock st b).2,
      CEvent.isError e = false ∧ CEvent.isResult e = false := by
  cases b with
  | text t =>
    by_cases h : t = "" <;> simp [handleBlock, h, yieldedOf, CEvent.isError,
      CEvent.isResult]
  | toolUse name input =>
    simp [handleBlock, yieldedOf, CEvent.isError, CEvent.isResult]
  | other =>
    simp [handleBlock, yieldedOf]

theorem handleBlocks_no_error_result (bs : List Block) :
    ∀ (st : LineState), ∀ e ∈ yieldedOf (handleBlocks st bs).2,
      CEvent.isError e = false ∧ CEvent.isResult e = false := by
  induction bs with
  | nil =>
    intro st e he
    simp [handleBlocks, yieldedOf] at he
  | cons b rest ih =>
    intro st e he
    simp only [handleBlocks, yieldedOf, List.filterMap_append] at he
    rcases List.mem_append.mp he with h | h
    · exact handleBlock_no_error_result st b e h
    · exact ih (handleBlock st b).1 e h

theorem handleMsg_no_error_result (st : LineState) (msg : Msg) :
    ∀ e ∈ yieldedOf (handleMsg st msg).2,
      CEvent.isError e = false ∧ CEvent.isResult e = false := by
  intro e he
  unfold handleMsg at he
  by_cases h1 : msg.type = some "assistant" ∧ msg.messageContent.isSome
  · rw [if_pos h1] at he
    exact handleBlocks_no_error_result ((msg.messageContent).getD []) _ e he
  · rw [if_neg h1] at he
    by_cases h2 : msg.type = some "tool_use"
    · rw [if_pos h2] at he
      simp [yieldedOf, CEvent.isError, CEvent.isResult] at he
      simp [he, CEvent.isError, CEvent.isResult]
    · rw [if_neg h2] at he
      by_cases h3 : msg.type = some "tool_result"
      · rw [if_pos h3] at he
        simp [yieldedOf, CEvent.isError, CEvent.isResult] at he
        simp [he, CEvent.isError, CEvent.isResult]
      · rw [if_neg h3] at he
        by_cases h4 : msg.type = some "result" ∨ strTruthy msg.result
        · rw [if_pos h4] at he
          simp [yieldedOf] at he
        · rw [if_neg h4] at he
          by_cases h5 : msg.type = some "system" ∧ strTruthy msg.messageSessionId
          · rw [if_pos h5] at he
            simp [yieldedOf] at he
          · rw [if_neg h5] at he
            simp [yieldedOf] at he

theorem processLine_no_error_result (parse : String → Option Msg)
    (st : LineState) (line : String) :
    ∀ e ∈ yieldedOf (processLine parse st line).2,
      CEvent.isError e = false ∧ CEvent.isResult e = false := by
  intro e he
  unfold processLine at he
  by_cases h1 : jsTrim line = ""
  · rw [if_pos h1] at he
    simp [yieldedOf] at he
  · rw [if_neg h1] at he
    cases hp : parse line with
    | some msg =>
      rw [hp] at he
      exact handleMsg_no_error_result st msg e he
    | none =>
      rw [hp] at he
      simp [yieldedOf] at he

theorem processLines_no_error_result (parse : String → Option Msg)
    (lines : List String) :
    ∀ (st : LineState), ∀ e ∈ yieldedOf (processLines parse st lines).2,
      CEvent.isError e = false ∧ CEvent.isResult e = false := by
  induction lines with
  | nil =>
    intro st e he
    simp [processLines, yieldedOf] at he
  | cons l rest ih =>
    intro st e he
    simp only [processLines, yieldedOf, List.filterMap_append] at he
    rcases List.mem_append.mp he with h | h
    · exact processLine_no_error_result parse st l e h
    · exact ih (processLine parse st l).1 e h

/-! ## Claim C6 -/

/-- C6 (code bug): the stream half of the claim holds — with a timeout the
send's event stream ends with exactly one error event whose timeout flag is
true and contains no result event — but the kill-escalation half is false
of the code: for a child process that ignores SIGTERM and is still alive at
the grace check, the successful SIGTERM send has already set Node's
`killed` flag (`killedFlag = true`), so the `!proc.killed` guard at
claude-code.js line 323 fails and SIGKILL is never sent, although the claim
(and spec section 4.2, which calls the two-phase escalation mandatory)
requires a forceful kill there; the SIGKILL branch fires only when the
SIGTERM send itself failed, i.e. the process was already gone. -/
theorem claim_C6_timeout_kill_bug (parse : String → Option Msg)
    (lines : List String) (pe : Option String) (ec : Option Int) :
    timeoutKillSignals true = [(0, "SIGTERM")] ∧
    "SIGKILL" ∉ (timeoutKillSignals true).map Prod.snd ∧
    timeoutKillSignals false = [(0, "SIGTERM"), (gracePeriodMs, "SIGKILL")] ∧
    gracePeriodMs = 2000 ∧
    claudeStreamEvents parse lines true pe ec =
      yieldedOf (processLines parse {} lines).2 ++
        [CEvent.error "Request timed out" true] ∧
    (claudeStreamEvents parse lines true pe ec).filter CEvent.isError =
      [CEvent.error "Request timed out" true] ∧
    (claudeStreamEvents parse lines true pe ec).filter CEvent.isResult = [] := by
  have hdec : claudeStreamEvents parse lines true pe ec =
      yieldedOf (processLines parse {} lines).2 ++
        [CEvent.error "Request timed out" true] := by
    simp [claudeStreamEvents, claudeFinalize]
  have herr : (yieldedOf (processLines parse {} lines).2).filter CEvent.isError =
      [] := by
    rw [List.filter_eq_nil_iff]
    intro e he
    simp [(processLines_no_error_result parse lines {} e he).1]
  have hres : (yieldedOf (processLines parse {} lines).2).filter CEvent.isResult =
      [] := by
    rw [List.filter_eq_nil_iff]
    intro e he
    simp [(processLines_no_error_result parse lines {} e he).2]
  refine ⟨rfl, by decide, rfl, rfl, hdec, ?_, ?_⟩
  · rw [hdec, List.filter_append, herr]
    simp [CEvent.isError]
  · rw [hdec, List.filter_append, hres]
    simp [CEvent.isResult]

/-! ## Claim C4 -/

/-- C4 (amended): the goose adapter surfaces a non-zero exit with NO
captured stdout as an error event whose message includes the captured
stderr, and treats a non-zero exit WITH captured stdout as a successful
result carrying that output; the claude-code adapter, however, ends the
stream with an error event on ANY non-zero exit — regardless of captured
output — and its message carries the exit code, not the stderr text. -/
theorem claim_C4_nonzero_exit (gparse : String → Option GooseResult)
    (ec : Option Int) (out1 out2 serr : String)
    (fr : Option Msg) (lac : String) (csid : Option String)
    (hec : ec ≠ some 0) :
    (out1 = "" →
      gooseFinalize gparse false none ec out1 serr =
        [CEvent.error
          ("Goose exited with code " ++ exitCodeText ec ++ ": " ++ serr) false] ∧
      ∃ pre, ("Goose exited with code " ++ exitCodeText ec ++ ": " ++ serr) =
        pre ++ serr) ∧
    (out2 ≠ "" →
      gooseFinalize gparse false none ec out2 serr =
        [CEvent.result
          (jsOr (((gparse (jsTrim out2)).bind GooseResult.response).getD "")
            (jsOr (((gparse (jsTrim out2)).bind GooseResult.result).getD "")
              (jsTrim out2))) none none]) ∧
    claudeFinalize false none ec fr lac csid =
      [CEvent.error ("Process exited with code " ++ exitCodeText ec) false] := by
  refine ⟨?_, ?_, ?_⟩
  · intro hout
    refine ⟨?_, ⟨"Goose exited with code " ++ exitCodeText ec ++ ": ", rfl⟩⟩
    simp [gooseFinalize, hec, hout]
  · intro hout
    simp [gooseFinalize, hec, hout]
  · simp [claudeFinalize, hec]

/-- C4 witness: the theorem applied at exit code 1, once with empty and
once with non-empty captured output (with `JSON.parse` failing, so the
result content is the trimmed raw output). -/
theorem claim_C4_witness :
    (some 1 : Option Int) ≠ some 0 ∧
    ("" : String) = "" ∧
    ("the answer" : String) ≠ "" ∧
    (gooseFinalize (fun _ => none) false none (some 1) "" "permission denied" =
        [CEvent.error ("Goose exited with code " ++ exitCodeText (some 1) ++ ": " ++
          "permission denied") false] ∧
      ∃ pre, ("Goose exited with code " ++ exitCodeText (some 1) ++ ": " ++
        "permission denied") = pre ++ "permission denied") ∧
    (gooseFinalize (fun _ => none) false none (some 1) "the answer"
        "permission denied" =
      [CEvent.result
        (jsOr ((((fun _ => (none : Option GooseResult)) (jsTrim "the answer")).bind
            GooseResult.response).getD "")
          (jsOr ((((fun _ => (none : Option GooseResult)) (jsTrim "the answer")).bind
              GooseResult.result).getD "")
            (jsTrim "the answer"))) none none]) ∧
    claudeFinalize false none (some 1) none "the answer" none =
      [CEvent.error ("Process exited with code " ++ exitCodeText (some 1)) false] :=
  ⟨by decide, rfl, by decide,
    (claim_C4_nonzero_exit (fun _ => none) (some 1) "" "the answer"
      "permission denied" none "the answer" none (by decide)).1 rfl,
    (claim_C4_nonzero_exit (fun _ => none) (some 1) "" "the answer"
      "permission denied" none "the answer" none (by decide)).2.1 (by decide),
    (claim_C4_nonzero_exit (fun _ => none) (some 1) "" "the answer"
      "permission denied" none "the answer" none (by decide)).2.2⟩

/-- C4 counterexample: the claude-code streaming runner at exit code 1 with
captured assistant output "The answer is 42" ends the stream with an error
event (whose message does not mention the output), not with a result event
carrying the output — refuting the claim for the claude-code adapter. -/
theorem claim_C4_counterexample :
    claudeFinalize false none (some 1) none "The answer is 42" none =
      [CEvent.error "Process exited with code 1" false] ∧
    ("The answer is 42" : String) ≠ "" ∧
    (claudeFinalize false none (some 1) none "The answer is 42" none).filter
      CEvent.isResult = [] := by
  refine ⟨rfl, by decide, rfl⟩

/-! ## Claim C8 -/

theorem processLines_append (parse : String → Option Msg) (xs : List String) :
    ∀ (st : LineState) (ys : List String),
      processLines parse st (xs ++ ys) =
        ((processLines parse (processLines parse st xs).1 ys).1,
         (processLines parse st xs).2 ++
           (processLines parse (processLines parse st xs).1 ys).2) := by
  induction xs with
  | nil =>
    intro st ys
    simp [processLines]
  | cons l rest ih =>
    intro st ys
    simp [processLines, ih, List.append_assoc]

/-- C8: a line that fails to parse among otherwise well-formed lines is
emitted as a raw unstructured chunk and the loop continues: the trace of
the whole stream is the trace of the prefix, then the raw chunk, then the
full trace of the suffix processed from the state the prefix produced —
no subsequent event is lost. -/
theorem claim_C8_malformed_line (parse : String → Option Msg) (st : LineState)
    (pre post : List String) (bad : String)
    (hbad : parse bad = none) (hne : jsTrim bad ≠ "") :
    processLines parse st (pre ++ bad :: post) =
      ((processLines parse (processLines parse st pre).1 post).1,
       (processLines parse st pre).2 ++
         Trace.emittedChunk bad none ::
           (processLines parse (processLines parse st pre).1 post).2) := by
  rw [processLines_append]
  simp [processLines, processLine, hbad, hne]

/-- C8 witness: the theorem applied to a concrete three-line stream whose
middle line fails to parse. -/
theorem claim_C8_witness :
    (fun _ : String => (none : Option Msg)) "oops" = none ∧
    jsTrim "oops" ≠ "" ∧
    processLines (fun _ => none) {} (["alpha"] ++ "oops" :: ["beta"]) =
      ((processLines (fun _ => none)
          (processLines (fun _ => none) {} ["alpha"]).1 ["beta"]).1,
       (processLines (fun _ => none) {} ["alpha"]).2 ++
         Trace.emittedChunk "oops" none ::
           (processLines (fun _ => none)
             (processLines (fun _ => none) {} ["alpha"]).1 ["beta"]).2) :=
  ⟨rfl, by decide,
    claim_C8_malformed_line (fun _ => none) {} ["alpha"] ["beta"] "oops" rfl
      (by decide)⟩

/-! ## Claim C9 -/

theorem effectiveMaxSize_pos (n : Nat) : 0 < effectiveMaxSize n := by
  by_cases h : n = 0
  · simp [effectiveMaxSize, h, maxResponseSizeDefault]
  · simp [effectiveMaxSize, h]
    exact Nat.pos_of_ne_zero h

theorem sendAndWaitLoop_props (maxSize : Nat) (chunks : List WChunk) :
    ∀ (fullResponse : String) (result : Option (String × Option String))
      (truncated : Bool) (trace : List Action)
      (out : String × Option (String × Option String) × Bool × List Action),
      sendAndWaitLoop maxSize chunks fullResponse result truncated trace =
        Except.ok out →
      (fullResponse.length < maxSize → out.1.length < maxSize) ∧
      (∀ s, Action.killSignal s ∈ out.2.2.2 → Action.killSignal s ∈ trace) ∧
      (out.2.2.1 = false →
        truncated = false ∧ out.1 = fullResponse ++ textConcat chunks) := by
  induction chunks with
  | nil =>
    intro fr res tr trace out h
    rw [sendAndWaitLoop] at h
    injection h with h2
    rw [← h2]
    refine ⟨fun hlt => hlt, fun s hs => hs, fun htr => ⟨htr, ?_⟩⟩
    rw [textConcat, String.append_empty]
  | cons c rest ih =>
    intro fr res tr trace out h
    cases c with
    | text s =>
      by_cases hlt : fr.length + s.length < maxSize
      · rw [sendAndWaitLoop, if_pos hlt] at h
        obtain ⟨h1, h2, h3⟩ := ih (fr ++ s) res tr (trace ++ [Action.emitChunk]) out h
        refine ⟨fun _ => ?_, fun sg hs => ?_, fun htr => ?_⟩
        · exact h1 (by rw [String.length_append]; exact hlt)
        · rcases List.mem_append.mp (h2 sg hs) with hh | hh
          · exact hh
          · simp at hh
        · obtain ⟨htr2, he⟩ := h3 htr
          refine ⟨htr2, ?_⟩
          rw [he, textConcat, String.append_assoc]
      · rw [sendAndWaitLoop, if_neg hlt] at h
        by_cases htr0 : (!tr) = true
        · rw [if_pos htr0] at h
          obtain ⟨h1, h2, h3⟩ := ih fr res true
            (trace ++ [Action.emitWarning, Action.emitChunk]) out h
          refine ⟨fun hfr => h1 hfr, fun sg hs => ?_, fun htr => ?_⟩
          · rcases List.mem_append.mp (h2 sg hs) with hh | hh
            · exact hh
            · simp at hh
          · obtain ⟨htr2, _⟩ := h3 htr
            exact absurd htr2 (by simp)
        · rw [if_neg htr0] at h
          have htr1 : tr = true := by
            cases tr
            · simp at htr0
            · rfl
          obtain ⟨h1, h2, h3⟩ := ih fr res tr (trace ++ [Action.emitChunk]) out h
          refine ⟨fun hfr => h1 hfr, fun sg hs => ?_, fun htr => ?_⟩
          · rcases List.mem_append.mp (h2 sg hs) with hh | hh
            · exact hh
            · simp at hh
          · obtain ⟨htr2, _⟩ := h3 htr
            rw [htr1] at htr2
            exact absurd htr2 (by simp)
    | result c so =>
      rw [sendAndWaitLoop] at h
      obtain ⟨h1, h2, h3⟩ := ih fr (some (c, so)) tr trace out h
      refine ⟨h1, h2, fun htr => ?_⟩
      obtain ⟨htr2, he⟩ := h3 htr
      exact ⟨htr2, by rw [he, textConcat]⟩
    | error c =>
      rw [sendAndWaitLoop] at h
      simp at h
    | other =>
      rw [sendAndWaitLoop] at h
      obtain ⟨h1, h2, h3⟩ := ih fr res tr trace out h
      refine ⟨h1, h2, fun htr => ?_⟩
      obtain ⟨htr2, he⟩ := h3 htr
      exact ⟨htr2, by rw [he, textConcat]⟩

/-- C9 (amended): over a send that completes, the accumulated text stays
strictly below the configured bound (default 10MB): a chunk whose appending
would reach the bound is discarded and the returned metadata carries
`truncated = true` (equivalently: `truncated = false` means every text
chunk was appended), and the loop never sends a kill signal; the discard is
per-chunk, however — a later chunk that still fits is appended (see the
counterexample). -/
theorem claim_C9_size_guard (maxResponseSize : Nat) (chunks : List WChunk)
    (resp : WaitResponse) (trace : List Action)
    (h : sendAndWait maxResponseSize chunks = Except.ok (resp, trace)) :
    resp.text.length < effectiveMaxSize maxResponseSize ∧
    (∀ s, Action.killSignal s ∉ trace) ∧
    (resp.truncated = false → resp.text = textConcat chunks) := by
  cases hloop : sendAndWaitLoop (effectiveMaxSize maxResponseSize) chunks "" none
      false [] with
  | error e =>
    have hsw : sendAndWait maxResponseSize chunks = Except.error e := by
      simp only [sendAndWait]
      rw [hloop]
    rw [hsw] at h
    simp at h
  | ok out =>
    obtain ⟨out1, out2, out3, out4⟩ := out
    have hsw : sendAndWait maxResponseSize chunks =
        Except.ok
          ({ text := out1,
             result := jsOr ((out2.map Prod.fst).getD "") out1,
             truncated := out3,
             structuredOutput := out2.bind Prod.snd }, out4) := by
      simp only [sendAndWait]
      rw [hloop]
    rw [hsw] at h
    injection h with h2
    injection h2 with hresp htrace
    obtain ⟨h1, h2, h3⟩ :=
      sendAndWaitLoop_props (effectiveMaxSize maxResponseSize) chunks "" none
        false [] (out1, out2, out3, out4) hloop
    rw [← hresp, ← htrace]
    refine ⟨?_, fun s hs => ?_, fun htr => ?_⟩
    · exact h1 (by simpa using effectiveMaxSize_pos maxResponseSize)
    · simpa using h2 s hs
    · exact (h3 (by simpa using htr)).2

/-- C9 witness: the theorem applied to a completing two-chunk send under
the default bound. -/
theorem claim_C9_witness :
    sendAndWait 0 [WChunk.text "ab", WChunk.text "c"] =
      Except.ok
        ({ text := "abc",
           result := "abc",
           truncated := false,
           structuredOutput := none }, [Action.emitChunk, Action.emitChunk]) ∧
    (wrAbcFix.text.length < effectiveMaxSize 0 ∧
     (∀ s, Action.killSignal s ∉ [Action.emitChunk, Action.emitChunk]) ∧
     (wrAbcFix.truncated = false →
       wrAbcFix.text = textConcat [WChunk.text "ab", WChunk.text "c"])) :=
  ⟨rfl, claim_C9_size_guard 0 [WChunk.text "ab", WChunk.text "c"] wrAbcFix
    [Action.emitChunk, Action.emitChunk] rfl⟩

/-- C9 counterexample: with the bound configured at 10, the 5-character
chunk that would reach the bound is discarded and the truncated flag set —
but the NEXT 1-character chunk is appended anyway (the final text ends in
"c"), so text arriving after the bound was first hit is not all discarded,
refuting "further text is discarded". -/
theorem claim_C9_counterexample :
    sendAndWait 10 [WChunk.text "aaaaaaaa", WChunk.text "bbbbb", WChunk.text "c"] =
      Except.ok
        ({ text := "aaaaaaaac",
           result := "aaaaaaaac",
           truncated := true,
           structuredOutput := none },
         [Action.emitChunk, Action.emitWarning, Action.emitChunk,
          Action.emitChunk]) ∧
    ("aaaaaaaac" : String) ≠ "aaaaaaaa" := by
  refine ⟨rfl, by decide⟩

/-! ## Claim C3 -/

/-- C3: with the registry at its configured maximum and one session
strictly least-recently-active, `createSession` (for a fresh id, on a
registered available adapter) evicts exactly that session — it is absent
from the registry and from `listSessions()` afterwards, while every other
session survives untouched — and then creates the new session
successfully. -/
theorem claim_C3_capacity_eviction (m : Manager) (opts : CreateOptions)
    (a : Adapter) (aName freshId : String) (now now2 : Nat)
    (k0 : String) (s0 : RSession)
    (hname : (opts.adapter).getD m.defaultAdapter = aName)
    (hsidn : opts.sessionId = none)
    (ha : m.adapters.get aName = some a)
    (hav : a.available = true)
    (hcap : m.sessions.size = m.maxSessions)
    (hn : JMap.NodupKeys m.sessions)
    (hmem : (k0, s0) ∈ m.sessions)
    (hmin : ∀ p ∈ m.sessions, p.1 ≠ k0 → s0.lastActivity < p.2.lastActivity)
    (hfreshA : a.sessions.get freshId = none)
    (hfreshR : m.sessions.get freshId = none) :
    (Manager.createSession m opts freshId now).1 =
      Except.ok { sessionId := freshId, adapter := aName, status := "ready" } ∧
    (Manager.createSession m opts freshId now).2.sessions.get k0 = none ∧
    (∀ e ∈ Manager.listSessions (Manager.createSession m opts freshId now).2 now2,
      e.sessionId ≠ k0) ∧
    (Manager.createSession m opts freshId now).2.sessions.get freshId =
      some { sessionId := freshId, adapterName := aName, createdAt := now,
             lastActivity := now, status := Status.stable, messageCount := 0 } ∧
    (∀ k v, k ≠ k0 → k ≠ freshId → m.sessions.get k = some v →
      (Manager.createSession m opts freshId now).2.sessions.get k = some v) := by
  have hk0get : m.sessions.get k0 = some s0 := JMap.mem_get _ _ _ hn hmem
  have hne0 : freshId ≠ k0 := by
    intro he
    rw [he, hk0get] at hfreshR
    simp at hfreshR
  have hge : m.sessions.size ≥ m.maxSessions := hcap.ge
  have hold : Manager.oldestEntry m.sessions = some (k0, s0.lastActivity) :=
    oldestEntry_eq_min m.sessions k0 s0 hn hmem hmin
  have hsess_t : (Manager.terminateSession m k0).2.sessions =
      m.sessions.delete k0 := by
    cases hb : m.adapters.get s0.adapterName with
    | none => simp [Manager.terminateSession, hk0get, hb]
    | some b => simp [Manager.terminateSession, hk0get, hb]
  have hadap_t : ∃ a1, (Manager.terminateSession m k0).2.adapters.get aName =
      some a1 ∧ a1.sessions.get freshId = none := by
    by_cases hsa : s0.adapterName = aName
    · refine ⟨a.terminate k0, ?_, ?_⟩
      · simp [Manager.terminateSession, hk0get, hsa, ha, JMap.get_set_self]
      · unfold Adapter.terminate
        cases hk : a.sessions.get k0 with
        | none => simpa using hfreshA
        | some s =>
          simp only []
          exact JMap.get_none_of_get_none_delete _ _ _ hfreshA
    · cases hb : m.adapters.get s0.adapterName with
      | none =>
        refine ⟨a, ?_, hfreshA⟩
        simp [Manager.terminateSession, hk0get, hb]
        exact ha
      | some b =>
        refine ⟨a, ?_, hfreshA⟩
        simp only [Manager.terminateSession, hk0get, hb]
        rw [JMap.get_set_ne _ _ _ _ (fun hh => hsa hh.symm)]
        exact ha
  obtain ⟨a1, hA1, hA1fresh⟩ := hadap_t
  have hres : (Manager.createSession m opts freshId now).1 =
      Except.ok { sessionId := freshId, adapter := aName, status := "ready" } := by
    simp [Manager.createSession, hname, ha, hav, hge, Manager.cleanupOldestSession,
      hold, hsidn, strTruthy, hA1, Adapter.spawn, JMap.has, hA1fresh]
  have hsessions : (Manager.createSession m opts freshId now).2.sessions =
      (m.sessions.delete k0).set freshId
        { sessionId := freshId, adapterName := aName, createdAt := now,
          lastActivity := now, status := Status.stable, messageCount := 0 } := by
    simp [Manager.createSession, hname, ha, hav, hge, Manager.cleanupOldestSession,
      hold, hsidn, strTruthy, hA1, Adapter.spawn, JMap.has, hA1fresh, hsess_t]
  have hget_k0 : (Manager.createSession m opts freshId now).2.sessions.get k0 =
      none := by
    rw [hsessions, JMap.get_set_ne _ _ _ _ (fun hh => hne0 hh.symm)]
    exact JMap.get_delete_self _ _ hn
  refine ⟨hres, hget_k0, ?_, ?_, ?_⟩
  · intro e he hek
    simp only [Manager.listSessions] at he
    obtain ⟨p, hp, hef⟩ := List.mem_map.mp he
    rw [← hef] at hek
    simp only [] at hek
    have hpmem : (p.1, p.2) ∈ (Manager.createSession m opts freshId now).2.sessions := by
      simpa using hp
    rw [hek] at hpmem
    exact JMap.not_mem_of_get_none _ _ _ hget_k0 hpmem
  · rw [hsessions]
    exact JMap.get_set_self _ _ _
  · intro k v hk hkf hget
    rw [hsessions, JMap.get_set_ne _ _ _ _ hkf, JMap.get_delete_ne _ _ _ hk]
    exact hget

/-- C3 witness: the theorem applied to a two-session registry at its
maximum of 2, where "old" (lastActivity 3) is strictly older than "new"
(lastActivity 9). -/
theorem claim_C3_witness :
    ((evictOptsFix.adapter).getD evictManagerFix.defaultAdapter = "claude-code") ∧
    (evictOptsFix.sessionId = none) ∧
    (evictManagerFix.adapters.get "claude-code" = some evictAdapterFix) ∧
    (evictAdapterFix.available = true) ∧
    (evictManagerFix.sessions.size = evictManagerFix.maxSessions) ∧
    JMap.NodupKeys evictManagerFix.sessions ∧
    (("old", evictOldSessFix) ∈ evictManagerFix.sessions) ∧
    (∀ p ∈ evictManagerFix.sessions, p.1 ≠ "old" →
      evictOldSessFix.lastActivity < p.2.lastActivity) ∧
    (evictAdapterFix.sessions.get "fresh" = none) ∧
    (evictManagerFix.sessions.get "fresh" = none) ∧
    ((Manager.createSession evictManagerFix evictOptsFix "fresh" 20).1 =
      Except.ok
        { sessionId := "fresh", adapter := "claude-code", status := "ready" } ∧
     (Manager.createSession evictManagerFix evictOptsFix "fresh" 20).2.sessions.get
        "old" = none ∧
     (∀ e ∈ Manager.listSessions
        (Manager.createSession evictManagerFix evictOptsFix "fresh" 20).2 21,
        e.sessionId ≠ "old") ∧
     (Manager.createSession evictManagerFix evictOptsFix "fresh" 20).2.sessions.get
        "fresh" =
       some { sessionId := "fresh", adapterName := "claude-code", createdAt := 20,
              lastActivity := 20, status := Status.stable, messageCount := 0 } ∧
     (∀ k v, k ≠ "old" → k ≠ "fresh" →
       evictManagerFix.sessions.get k = some v →
       (Manager.createSession evictManagerFix evictOptsFix "fresh"
          20).2.sessions.get k = some v)) :=
  ⟨rfl, rfl, rfl, rfl, rfl, by decide, by decide, by decide, rfl, rfl,
    claim_C3_capacity_eviction evictManagerFix evictOptsFix evictAdapterFix
      "claude-code" "fresh" 20 21 "old" evictOldSessFix rfl rfl rfl rfl rfl
      (by decide) (by decide) (by decide) rfl rfl⟩

end CliAgents
